import Mathlib

/-! # Verification of the renovar blog backend

Shallow embedding of the two server variants of this repository:
the file-backed variant (`src/server.js`, "file mode") persisting posts in
`posts.json`, and the database-backed variant (`src/unnamed/part_000`,
"backend mode") persisting posts as table rows.  Pure request handlers are
modelled as Lean functions from the stored state and the request fields to a
response and the resulting state; environment reads (clock, uploaded-file
URLs, database-assigned columns) are explicit parameters, and disk/database
writes are modelled as succeeding, the state component being the value the
handler hands to the write.
-/

namespace Renovar

/-! ## Character classes and string helpers -/

/-- The characters kept by the `[^a-z0-9 -]` strip in `generateSlug`:
lowercase ASCII letters (97–122), digits (48–57), space (32), hyphen (45). -/
def keepChar (c : Char) : Bool :=
  (97 ≤ c.toNat && c.toNat ≤ 122) || (48 ≤ c.toNat && c.toNat ≤ 57)
    || c.toNat == 32 || c.toNat == 45

/-- ASCII whitespace matched by the `\s` class of the JS regexes
(space, tab, LF, VT, FF, CR).  Unicode whitespace is not modelled; it cannot
survive the strip step that precedes every `\s` use in the sources. -/
def isJsWS (c : Char) : Bool :=
  c.toNat == 32 || c.toNat == 9 || c.toNat == 10 || c.toNat == 11
    || c.toNat == 12 || c.toNat == 13

/-- The hyphen-minus character (45), the class of the hyphen-run regex. -/
def isDash (c : Char) : Bool :=
  c.toNat == 45

/-- Output characters of a slug: lowercase ASCII letter, digit, or hyphen. -/
def isSlugChar (c : Char) : Bool :=
  (97 ≤ c.toNat && c.toNat ≤ 122) || (48 ≤ c.toNat && c.toNat ≤ 57)
    || c.toNat == 45

/-- ASCII model of `String.prototype.toLowerCase`. -/
def jsToLower (c : Char) : Char :=
  if 65 ≤ c.toNat ∧ c.toNat ≤ 90 then Char.ofNat (c.toNat + 32) else c

/-- Worker for `replaceRuns`.  The flag records whether the previous character
belonged to a run that has already emitted its replacement. -/
def replaceRunsAux (p : Char → Bool) (r : Char) : Bool → List Char → List Char
  | _, [] => []
  | inRun, c :: cs =>
    if p c then
      if inRun then replaceRunsAux p r true cs
      else r :: replaceRunsAux p r true cs
    else c :: replaceRunsAux p r false cs

/-- JS `s.replace(/X+/g, r)` for a character class `X`: every maximal run of
`X`-characters becomes the single character `r`. -/
def replaceRuns (p : Char → Bool) (r : Char) (l : List Char) : List Char :=
  replaceRunsAux p r false l

/-- JS `s.replace(/^-+|-+$/g, '')`: drop leading and trailing hyphens. -/
def trimDashes (l : List Char) : List Char :=
  (((l.dropWhile isDash).reverse).dropWhile isDash).reverse

/-- Function `generateSlug` from both sources (`src/server.js` lines 17–24 and
`src/unnamed/part_000` lines 42–49): lowercase, strip `[^a-z0-9 -]`,
replace `\s+` runs by `-`, collapse `-+` runs, trim `^-+|-+$`. -/
def generateSlug (title : String) : String :=
  String.mk (trimDashes (replaceRuns isDash '-' (replaceRuns isJsWS '-'
    ((title.data.map jsToLower).filter keepChar))))

/-- The slug pipeline as described by the specification, stated in an
independent form: lowercase, strip, and turn every whitespace character into
a hyphen (so each maximal whitespace run becomes a hyphen run, which the
subsequent hyphen collapse reduces to a single hyphen), then collapse hyphen
runs and trim hyphens at the ends. -/
def slugSpec (title : String) : String :=
  String.mk (trimDashes (replaceRuns isDash '-'
    (((title.data.map jsToLower).filter keepChar).map
      (fun c => if isJsWS c then '-' else c))))

/-- Slug assigned at creation by the file variant (`server.js` line 119). -/
def fileCreateSlug (title : String) : String :=
  generateSlug title

/-- Slug assigned at creation by the backend variant (`part_000` line 133):
the slug with a `Date.now()` suffix. -/
def backendCreateSlug (title : String) (now : Nat) : String :=
  generateSlug title ++ "-" ++ toString now

/-- JS falsiness of an optional string body field: absent or empty. -/
def jsFalsy : Option String → Bool
  | none => true
  | some s => s == ""

/-- Numeric value of a list of decimal digits. -/
def digitsVal (l : List Char) : Nat :=
  l.foldl (fun n c => 10 * n + (c.toNat - 48)) 0

/-- Model of `parseInt` for route parameters: the value of the maximal leading digit
run, `none` (NaN) when there is no leading digit.  Signs, whitespace and hex
prefixes accepted by JS `parseInt` do not occur in this API's identifiers. -/
def jsParseInt (s : String) : Option Nat :=
  let ds := s.data.takeWhile (fun c => c.isDigit)
  if ds.isEmpty then none else some (digitsVal ds)

/-- Model of `!isNaN(s)` for identifier strings: `s` is a nonempty run of decimal
digits.  JS `Number()` also accepts signed, fractional and padded forms that
this API's identifiers do not use. -/
def jsIsNumeric (s : String) : Bool :=
  !s.data.isEmpty && s.data.all (fun c => c.isDigit)

/-! ## Data model -/

/-- A post record as stored in the file variant's `posts.json`.  `updated`
is absent until the first successful PUT. -/
structure Post where
  id : Nat
  title : String
  content : String
  label : String
  slug : String
  date : String
  createdAt : String
  image : Option String
  updated : Option String
deriving Repr, DecidableEq

/-- Contents of `posts.json`: unreadable file, unparsable JSON, or a parsed
array of posts. -/
inductive FileContent where
  | readError
  | corrupt
  | good (posts : List Post)
deriving Repr, DecidableEq

/-- A row of the `posts` table in the backend variant.  `id` and
`created_at` are assigned by the database. -/
structure Row where
  id : Nat
  title : String
  content : String
  label : String
  slug : String
  image : Option String
  created_at : String
  updated_at : Option String
deriving Repr, DecidableEq

/-- The backend variant's posts table together with the id sequence the
database draws fresh ids from. -/
structure BackendState where
  rows : List Row
  nextId : Nat
deriving Repr, DecidableEq

/-- First index matched by a predicate, as JS `Array.prototype.findIndex`
(with `none` for `-1`). -/
def jsFindIndex (p : α → Bool) : List α → Option Nat
  | [] => none
  | a :: l => if p a then some 0 else (jsFindIndex p l).map (· + 1)

/-! ## Handlers, file variant (`src/server.js`) -/

/-- Response of `POST /api/posts` in the file variant. -/
inductive CreateResult where
  | badRequest
  | saved (id : Nat) (slug : String)
deriving Repr, DecidableEq

/-- Handler of `POST /api/posts` in the file variant (`server.js` lines 102–132).
`Date.now()`, the two date strings and the uploaded file's URL are
parameters.  A read error or unparsable file falls back to an empty array. -/
def createPost (file : FileContent) (title content label : Option String)
    (now : Nat) (dateStr isoStr : String) (imageUrl : Option String) :
    CreateResult × FileContent :=
  if jsFalsy title || jsFalsy content || jsFalsy label then
    (.badRequest, file)
  else
    let posts := match file with
      | .good ps => ps
      | _ => []
    let newPost : Post :=
      { id := now
        title := title.getD ""
        content := content.getD ""
        label := label.getD ""
        slug := fileCreateSlug (title.getD "")
        date := dateStr
        createdAt := isoStr
        image := imageUrl
        updated := none }
    (.saved newPost.id newPost.slug, .good (posts ++ [newPost]))

/-- Response of `GET /api/post/:identifier` in the file variant. -/
inductive LookupResult where
  | found (p : Post)
  | notFound
  | serverError
deriving Repr, DecidableEq

/-- Handler of `GET /api/post/:identifier` in the file variant (`server.js` lines
70–86): numeric-id match, else exact slug, else the slug derived on the fly
from each post's title; 404 when all fail. -/
def lookupFile (file : FileContent) (ident : String) : LookupResult :=
  match file with
  | .readError => .serverError
  | .corrupt => .serverError
  | .good posts =>
    let byId : Option Post :=
      if jsIsNumeric ident then
        posts.find? (fun p => jsParseInt ident == some p.id)
      else none
    let bySlug := byId <|> posts.find? (fun p => p.slug == ident)
    let byDerived := bySlug <|> posts.find? (fun p => generateSlug p.title == ident)
    match byDerived with
    | some p => .found p
    | none => .notFound

/-- Response of `PUT /api/posts/:id` in the file variant. -/
inductive UpdateResult where
  | badRequest
  | notFound
  | serverError
  | success
deriving Repr, DecidableEq

/-- Handler of `PUT /api/posts/:id` in the file variant (`server.js` lines 139–158):
all of title, content, label are required; the first post whose id matches
`parseInt` of the route parameter is merged in place and its slug
recomputed.  The inner `none` branch of the index lookup is unreachable. -/
def updatePost (file : FileContent) (idStr : String)
    (title content label : Option String) (nowIso : String) :
    UpdateResult × FileContent :=
  if jsFalsy title || jsFalsy content || jsFalsy label then
    (.badRequest, file)
  else
    match file with
    | .readError => (.serverError, file)
    | .corrupt => (.serverError, file)
    | .good posts =>
      match jsFindIndex (fun p => jsParseInt idStr == some p.id) posts with
      | none => (.notFound, file)
      | some i =>
        match posts.get? i with
        | none => (.notFound, file)
        | some p =>
          let p2 : Post :=
            { p with
              title := title.getD ""
              content := content.getD ""
              label := label.getD ""
              slug := generateSlug (title.getD "")
              updated := some nowIso }
          (.success, .good (posts.set i p2))

/-- Response of `DELETE /api/posts/:id` in the file variant. -/
inductive DeleteResult where
  | notFound
  | serverError
  | deleted (post : Post)
deriving Repr, DecidableEq

/-- Handler of `DELETE /api/posts/:id` in the file variant (`server.js` lines 161–177):
splice out the first post whose id matches and return it; 404 when no id
matches.  The inner `none` branch of the index lookup is unreachable. -/
def deletePost (file : FileContent) (idStr : String) :
    DeleteResult × FileContent :=
  match file with
  | .readError => (.serverError, file)
  | .corrupt => (.serverError, file)
  | .good posts =>
    match jsFindIndex (fun p => jsParseInt idStr == some p.id) posts with
    | none => (.notFound, file)
    | some i =>
      match posts.get? i with
      | none => (.notFound, file)
      | some p => (.deleted p, .good (posts.eraseIdx i))

/-- HTTP status of a file-variant delete response. -/
def deleteStatus : DeleteResult → Nat
  | .notFound => 404
  | .serverError => 500
  | .deleted _ => 200

/-! ## Handlers, backend variant (`src/unnamed/part_000`) -/

/-- Response of `POST /api/posts` in the backend variant. -/
inductive BCreateResult where
  | badRequest
  | created (row : Row)
deriving Repr, DecidableEq

/-- Handler of `POST /api/posts` in the backend variant (`part_000` lines 128–143).
The insert is modelled as succeeding; `id` and `created_at` are assigned by
the database (`st.nextId` and `dbNow`).  `image: image || null` stores null
for a falsy image field. -/
def backendCreate (st : BackendState) (title content label image : Option String)
    (now : Nat) (dbNow : String) : BCreateResult × BackendState :=
  if jsFalsy title || jsFalsy content || jsFalsy label then
    (.badRequest, st)
  else
    let row : Row :=
      { id := st.nextId
        title := title.getD ""
        content := content.getD ""
        label := label.getD ""
        slug := backendCreateSlug (title.getD "") now
        image := if jsFalsy image then none else image
        created_at := dbNow
        updated_at := none }
    (.created row, { rows := st.rows ++ [row], nextId := st.nextId + 1 })

/-- Response of `GET /api/post/:identifier` in the backend variant. -/
inductive BLookupResult where
  | found (r : Row)
  | notFound
deriving Repr, DecidableEq

/-- Supabase `.single()`: succeeds exactly when the filtered selection holds
one row; zero or several rows are an error, answered as 404 by the route. -/
def sbSingle : List Row → Option Row
  | [r] => some r
  | _ => none

/-- Handler of `GET /api/post/:identifier` in the backend variant (`part_000` lines
111–125): a numeric identifier is looked up by id only, any other identifier
by slug only; `eq` on the integer id column reads the identifier's numeric
value. -/
def lookupBackend (st : BackendState) (ident : String) : BLookupResult :=
  let sel :=
    if jsIsNumeric ident then
      sbSingle (st.rows.filter (fun r => jsParseInt ident == some r.id))
    else
      sbSingle (st.rows.filter (fun r => r.slug == ident))
  match sel with
  | some r => .found r
  | none => .notFound

/-- The image value used by the backend update: the freshly uploaded file's
public URL when one is present, else the body's image field
(`part_000` lines 153–165). -/
def bImageOf (bodyImage uploadUrl : Option String) : Option String :=
  match uploadUrl with
  | some u => some u
  | none => bodyImage

/-- The slug value computed by the backend update: the inlined slug pipeline
applied to a truthy title, else undefined (`part_000` lines 167–173). -/
def bSlugOf (title : Option String) : Option String :=
  match title with
  | some t => if t == "" then none else some (generateSlug t)
  | none => none

/-- The `updateData` object spread onto a matching row: `...(x && {x})`
merges only truthy fields, `updated_at` is always stamped
(`part_000` lines 175–182). -/
def bUpdateRow (title content label image slug : Option String)
    (nowIso : String) (r : Row) : Row :=
  { r with
    title := if jsFalsy title then r.title else title.getD ""
    content := if jsFalsy content then r.content else content.getD ""
    label := if jsFalsy label then r.label else label.getD ""
    slug := if jsFalsy slug then r.slug else slug.getD ""
    image := if jsFalsy image then r.image else image
    updated_at := some nowIso }

/-- Handler of `PUT /api/posts/:id` in the backend variant (`part_000` lines 147–192).
The update applies to every row whose id matches, and the response carries
`data[0]`. -/
def backendUpdate (st : BackendState) (idStr : String)
    (title content label bodyImage uploadUrl : Option String)
    (nowIso : String) : Option Row × BackendState :=
  let upd := bUpdateRow title content label (bImageOf bodyImage uploadUrl)
    (bSlugOf title) nowIso
  let pid := jsParseInt idStr
  let rows2 := st.rows.map (fun r => if pid == some r.id then upd r else r)
  ((rows2.filter (fun r => pid == some r.id)).head?, { st with rows := rows2 })

/-- Handler of `DELETE /api/posts/:id` in the backend variant (`part_000` lines
196–204): remove every row whose id matches and answer 200 with the first
removed row (possibly absent); there is no 404 branch. -/
def backendDelete (st : BackendState) (idStr : String) :
    Option Row × BackendState :=
  let pid := jsParseInt idStr
  ((st.rows.filter (fun r => pid == some r.id)).head?,
   { st with rows := st.rows.filter (fun r => !(pid == some r.id)) })

/-- HTTP status of a backend-variant delete response: the route always
answers `res.json({success, post})`, i.e. 200. -/
def backendDeleteStatus : Option Row → Nat :=
  fun _ => 200

/-! ## Auth (`authMiddleware`, login, JWT model) -/

/-- Outcome of the auth gate on a protected route. -/
inductive AuthOutcome where
  | unauthorized
  | forbidden
  | proceed
deriving Repr, DecidableEq

/-- JS `String.prototype.split` with a single-character separator, keeping
empty parts. -/
def splitChar (sep : Char) : List Char → List (List Char)
  | [] => [[]]
  | c :: cs =>
    let r := splitChar sep cs
    if c == sep then [] :: r
    else
      match r with
      | [] => [[c]]
      | h :: t => (c :: h) :: t

/-- JS `String.prototype.startsWith`. -/
def jsStartsWith (s pre : String) : Bool :=
  s.data.take pre.data.length == pre.data

/-- Token extraction `authHeader.split(' ')[1]`: the part between the first and second space
(empty when the header is exactly `"Bearer "`). -/
def bearerToken (h : String) : String :=
  String.mk (((splitChar ' ' h.data).drop 1).headD [])

/-- Gate `authMiddleware` (`server.js` lines 89–99, `part_000` lines 29–39):
401 when the header is absent or does not start with `"Bearer "`, 403 when
`jwt.verify` rejects the extracted token (bad signature or expiry, abstracted
by the `verify` parameter), and otherwise the route handler runs. -/
def authMiddleware (verify : String → Bool) (authHeader : Option String) :
    AuthOutcome :=
  match authHeader with
  | none => .unauthorized
  | some h =>
    if !jsStartsWith h "Bearer " then .unauthorized
    else if verify (bearerToken h) then .proceed
    else .forbidden

/-- Model of a signed token: the payload's username claim, the secret it was
signed with, and its expiry time in seconds. -/
structure Token where
  username : String
  secret : Nat
  exp : Nat
deriving Repr, DecidableEq

/-- Signing, as `jwt.sign` with the username claim and a 1-hour expiry: expiry one hour
(3600 s) after signing time. -/
def jwtSign (username : String) (secret : Nat) (now : Nat) : Token :=
  { username := username
    secret := secret
    exp := now + 3600 }

/-- Verification, as `jwt.verify(token, secret)` at time `now`: accepts exactly the tokens
signed with the same secret and not yet expired. -/
def jwtVerify (t : Token) (secret : Nat) (now : Nat) : Bool :=
  t.secret == secret && decide (now < t.exp)

/-- Response of `POST /api/login`. -/
inductive LoginResult where
  | badRequest
  | unauthorized
  | ok (token : Token)
deriving Repr, DecidableEq

/-- The configured admin identity and signing secret. -/
structure Env where
  adminUsername : String
  adminPasswordHash : String
  jwtSecret : Nat

/-- Handler of `POST /api/login` (`server.js` lines 39–55, `part_000` lines 66–84):
400 when a field is falsy, 401 on a wrong username or a failing
`bcrypt.compare` (abstracted by the `compare` parameter, taking the
submitted password and the stored hash), else a signed 1-hour token carrying
the submitted username. -/
def loginHandler (compare : String → String → Bool) (env : Env)
    (username password : Option String) (now : Nat) : LoginResult :=
  if jsFalsy username || jsFalsy password then .badRequest
  else if !(username.getD "" == env.adminUsername) then .unauthorized
  else if !compare (password.getD "") env.adminPasswordHash then .unauthorized
  else .ok (jwtSign (username.getD "") env.jwtSecret now)

/-! ## Slug lemmas -/

lemma isDash_iff {c : Char} : isDash c = true ↔ c.toNat = 45 := by
  simp [isDash]

lemma isJsWS_iff {c : Char} :
    isJsWS c = true ↔
      c.toNat = 32 ∨ c.toNat = 9 ∨ c.toNat = 10 ∨ c.toNat = 11
        ∨ c.toNat = 12 ∨ c.toNat = 13 := by
  simp [isJsWS]
  tauto

lemma keepChar_iff {c : Char} :
    keepChar c = true ↔
      (97 ≤ c.toNat ∧ c.toNat ≤ 122) ∨ (48 ≤ c.toNat ∧ c.toNat ≤ 57)
        ∨ c.toNat = 32 ∨ c.toNat = 45 := by
  simp [keepChar]
  tauto

lemma isSlugChar_iff {c : Char} :
    isSlugChar c = true ↔
      (97 ≤ c.toNat ∧ c.toNat ≤ 122) ∨ (48 ≤ c.toNat ∧ c.toNat ≤ 57)
        ∨ c.toNat = 45 := by
  simp [isSlugChar]
  tauto

lemma dash_char_eq {c : Char} (h : isDash c = true) : c = '-' := by
  have hv : c.toNat = 45 := isDash_iff.mp h
  have := Char.ofNat_toNat c
  rw [hv] at this
  exact this.symm

/-- The combined character class of whitespace and hyphen runs. -/
def isWSorDash (c : Char) : Bool :=
  isJsWS c || isDash c

lemma rra_map_wsToDash (l : List Char) (b : Bool) :
    replaceRunsAux isDash '-' b (l.map (fun c => if isJsWS c then '-' else c))
      = replaceRunsAux isWSorDash '-' b l := by
  induction l generalizing b with
  | nil => rfl
  | cons c cs ih =>
    by_cases hw : isJsWS c = true
    · have hd : isDash '-' = true := by decide
      cases b <;>
        simp [replaceRunsAux, hw, hd, isWSorDash, ih]
    · have hw' : isJsWS c = false := by simpa using hw
      by_cases hd : isDash c = true
      · cases b <;>
          simp [replaceRunsAux, hw', hd, isWSorDash, ih]
      · have hd' : isDash c = false := by simpa using hd
        cases b <;>
          simp [replaceRunsAux, hw', hd', isWSorDash, ih]

lemma rra_dash_rra_ws (l : List Char) (b₁ b₂ : Bool)
    (hb : b₁ = true → b₂ = true) :
    replaceRunsAux isDash '-' b₂ (replaceRunsAux isJsWS '-' b₁ l)
      = replaceRunsAux isWSorDash '-' b₂ l := by
  induction l generalizing b₁ b₂ with
  | nil => rfl
  | cons c cs ih =>
    by_cases hw : isJsWS c = true
    · have hd : isDash '-' = true := by decide
      cases b₁ with
      | true =>
        have hb2 : b₂ = true := hb rfl
        subst hb2
        simpa [replaceRunsAux, hw, isWSorDash] using ih true true (fun _ => rfl)
      | false =>
        cases b₂ <;>
          simpa [replaceRunsAux, hw, hd, isWSorDash]
            using ih true true (fun _ => rfl)
    · have hw' : isJsWS c = false := by simpa using hw
      by_cases hd : isDash c = true
      · cases b₂ <;>
          simpa [replaceRunsAux, hw', hd, isWSorDash]
            using ih false true (fun h => by cases h)
      · have hd' : isDash c = false := by simpa using hd
        simpa [replaceRunsAux, hw', hd', isWSorDash]
          using ih false false (fun h => by cases h)

lemma generateSlug_eq_slugSpec (t : String) : generateSlug t = slugSpec t := by
  unfold generateSlug slugSpec replaceRuns
  rw [rra_dash_rra_ws _ false false (fun h => h), rra_map_wsToDash]

/-! ### Character invariants of the slug output -/

lemma mem_rra {p : Char → Bool} {r c : Char} {l : List Char} {b : Bool}
    (h : c ∈ replaceRunsAux p r b l) : c = r ∨ (c ∈ l ∧ p c = false) := by
  induction l generalizing b with
  | nil => cases h
  | cons a as ih =>
    by_cases hp : p a = true
    · cases b with
      | true =>
        simp only [replaceRunsAux, hp, if_pos] at h
        rcases ih h with h' | h'
        · exact Or.inl h'
        · exact Or.inr ⟨List.mem_cons_of_mem _ h'.1, h'.2⟩
      | false =>
        simp only [replaceRunsAux, hp, if_pos] at h
        rcases List.mem_cons.mp h with h' | h'
        · exact Or.inl h'
        · rcases ih h' with h'' | h''
          · exact Or.inl h''
          · exact Or.inr ⟨List.mem_cons_of_mem _ h''.1, h''.2⟩
    · have hp' : p a = false := by simpa using hp
      simp only [replaceRunsAux, hp', Bool.false_eq_true, if_neg] at h
      rcases List.mem_cons.mp h with h' | h'
      · subst h'
        exact Or.inr ⟨List.mem_cons_self _ _, hp'⟩
      · rcases ih h' with h'' | h''
        · exact Or.inl h''
        · exact Or.inr ⟨List.mem_cons_of_mem _ h''.1, h''.2⟩

lemma mem_dropWhile {p : α → Bool} {l : List α} {a : α}
    (h : a ∈ l.dropWhile p) : a ∈ l := by
  induction l with
  | nil => cases h
  | cons b bs ih =>
    by_cases hp : p b = true
    · simp only [List.dropWhile, hp] at h
      exact List.mem_cons_of_mem _ (ih h)
    · have hp' : p b = false := by simpa using hp
      simpa [List.dropWhile, hp'] using h

lemma mem_trimDashes {c : Char} {l : List Char} (h : c ∈ trimDashes l) :
    c ∈ l := by
  unfold trimDashes at h
  rw [List.mem_reverse] at h
  have h2 := mem_dropWhile h
  rw [List.mem_reverse] at h2
  exact mem_dropWhile h2

lemma slug_chars (t : String) : ∀ c ∈ (generateSlug t).data, isSlugChar c = true := by
  intro c hc
  have hc1 : c ∈ trimDashes (replaceRuns isDash '-' (replaceRuns isJsWS '-'
      ((t.data.map jsToLower).filter keepChar))) := hc
  have hc2 := mem_trimDashes hc1
  rcases mem_rra hc2 with h | ⟨h3, hd⟩
  · subst h; decide
  · rcases mem_rra h3 with h | ⟨h4, hw⟩
    · subst h; decide
    · have hk : keepChar c = true := List.of_mem_filter h4
      rw [isSlugChar_iff]
      rcases keepChar_iff.mp hk with h | h | h | h
      · exact Or.inl h
      · exact Or.inr (Or.inl h)
      · exact absurd (isJsWS_iff.mpr (Or.inl h)) (by simp [hw])
      · exact Or.inr (Or.inr h)

lemma toLower_fix {c : Char} (h : isSlugChar c = true) : jsToLower c = c := by
  rw [isSlugChar_iff] at h
  unfold jsToLower
  rw [if_neg]
  omega

lemma keep_of_slug {c : Char} (h : isSlugChar c = true) : keepChar c = true := by
  rw [isSlugChar_iff] at h
  rw [keepChar_iff]
  omega

lemma not_ws_of_slug {c : Char} (h : isSlugChar c = true) : isJsWS c = false := by
  rw [isSlugChar_iff] at h
  by_contra hw
  have hw' : isJsWS c = true := by simpa using hw
  rw [isJsWS_iff] at hw'
  omega

lemma map_id_of {f : α → α} {l : List α} (h : ∀ a ∈ l, f a = a) :
    l.map f = l := by
  induction l with
  | nil => rfl
  | cons a as ih =>
    simp only [List.map_cons, h a (List.mem_cons_self _ _),
      ih (fun b hb => h b (List.mem_cons_of_mem _ hb))]

lemma filter_id_of {p : α → Bool} {l : List α} (h : ∀ a ∈ l, p a = true) :
    l.filter p = l :=
  List.filter_eq_self.mpr h

lemma rra_id_of_none {p : Char → Bool} {r : Char} {l : List Char}
    (h : ∀ c ∈ l, p c = false) : ∀ b, replaceRunsAux p r b l = l := by
  induction l with
  | nil => intro b; rfl
  | cons a as ih =>
    intro b
    have ha : p a = false := h a (List.mem_cons_self _ _)
    have tail := ih (fun c hc => h c (List.mem_cons_of_mem _ hc)) false
    simp [replaceRunsAux, ha, tail]

/-! ### No adjacent hyphens, no hyphens at the ends -/

/-- No two adjacent hyphens. -/
def NoDD (l : List Char) : Prop :=
  l.Chain' (fun a b => ¬(isDash a = true ∧ isDash b = true))

/-- The head, when present, is not a hyphen. -/
def HeadOk (l : List Char) : Prop :=
  ∀ c, l.head? = some c → isDash c = false

lemma headOk_nil : HeadOk ([] : List Char) := by
  intro c hc
  cases hc

lemma headOk_cons {c : Char} {l : List Char} (h : isDash c = false) :
    HeadOk (c :: l) := by
  intro d hd
  rw [List.head?_cons, Option.some_inj] at hd
  rw [← hd]
  exact h

lemma rra_dash_noDD (l : List Char) :
    ∀ b, NoDD (replaceRunsAux isDash '-' b l)
      ∧ HeadOk (replaceRunsAux isDash '-' true l) := by
  induction l with
  | nil => exact fun _ => ⟨List.chain'_nil, headOk_nil⟩
  | cons c cs ih =>
    intro b
    by_cases hd : isDash c = true
    · have hredf : replaceRunsAux isDash '-' false (c :: cs)
          = '-' :: replaceRunsAux isDash '-' true cs := by
        simp [replaceRunsAux, hd]
      have hredt : replaceRunsAux isDash '-' true (c :: cs)
          = replaceRunsAux isDash '-' true cs := by
        simp [replaceRunsAux, hd]
      constructor
      · cases b with
        | true =>
          rw [hredt]
          exact (ih true).1
        | false =>
          rw [hredf, NoDD, List.chain'_cons']
          refine ⟨?_, (ih true).1⟩
          intro d hdd
          have := (ih true).2 d hdd
          simp [this]
      · rw [hredt]
        exact (ih true).2
    · have hd' : isDash c = false := by simpa using hd
      have hred : ∀ b', replaceRunsAux isDash '-' b' (c :: cs)
          = c :: replaceRunsAux isDash '-' false cs := by
        intro b'
        simp [replaceRunsAux, hd']
      constructor
      · rw [hred b, NoDD, List.chain'_cons']
        refine ⟨?_, (ih false).1⟩
        intro d _
        simp [hd']
      · rw [hred true]
        exact headOk_cons hd'

lemma noDD_dropWhile {l : List Char} (h : NoDD l) :
    NoDD (l.dropWhile isDash) := by
  induction l with
  | nil => exact h
  | cons c cs ih =>
    by_cases hd : isDash c = true
    · have h' : NoDD cs := (List.chain'_cons'.mp h).2
      simpa [List.dropWhile, hd] using ih h'
    · have hd' : isDash c = false := by simpa using hd
      simpa [List.dropWhile, hd'] using h

lemma noDD_reverse {l : List Char} (h : NoDD l) : NoDD l.reverse := by
  rw [NoDD, List.chain'_reverse]
  refine h.imp ?_
  intro a b hab
  intro hb
  exact hab ⟨hb.2, hb.1⟩

lemma noDD_trim {l : List Char} (h : NoDD l) : NoDD (trimDashes l) := by
  unfold trimDashes
  exact noDD_reverse (noDD_dropWhile (noDD_reverse (noDD_dropWhile h)))

lemma headOk_dropWhile (l : List Char) : HeadOk (l.dropWhile isDash) := by
  induction l with
  | nil => exact headOk_nil
  | cons c cs ih =>
    by_cases hd : isDash c = true
    · simpa [List.dropWhile, hd] using ih
    · have hd' : isDash c = false := by simpa using hd
      simp only [List.dropWhile, hd', Bool.false_eq_true, if_neg]
      exact headOk_cons hd'

lemma exists_append_dropWhile (p : α → Bool) (l : List α) :
    ∃ t, l = t ++ l.dropWhile p := by
  induction l with
  | nil => exact ⟨[], rfl⟩
  | cons c cs ih =>
    by_cases hp : p c = true
    · obtain ⟨t, ht⟩ := ih
      exact ⟨c :: t, by simpa [List.dropWhile, hp] using ht⟩
    · have hp' : p c = false := by simpa using hp
      exact ⟨[], by simp [List.dropWhile, hp']⟩

lemma headOk_append_left {a b : List Char} (h : HeadOk (a ++ b)) :
    HeadOk a := by
  cases a with
  | nil => exact headOk_nil
  | cons c cs =>
    intro d hd
    rw [List.head?_cons, Option.some_inj] at hd
    exact h d (by rw [List.cons_append, List.head?_cons, hd])

lemma headOk_trim (l : List Char) : HeadOk (trimDashes l) := by
  unfold trimDashes
  obtain ⟨t, ht⟩ := exists_append_dropWhile isDash ((l.dropWhile isDash).reverse)
  have hy : HeadOk (l.dropWhile isDash) := headOk_dropWhile l
  have : l.dropWhile isDash
      = (((l.dropWhile isDash).reverse).dropWhile isDash).reverse ++ t.reverse := by
    calc l.dropWhile isDash
        = ((l.dropWhile isDash).reverse).reverse := by rw [List.reverse_reverse]
      _ = (t ++ ((l.dropWhile isDash).reverse).dropWhile isDash).reverse := by rw [← ht]
      _ = _ := by rw [List.reverse_append]
  rw [this] at hy
  exact headOk_append_left hy

lemma headOk_trim_reverse (l : List Char) : HeadOk (trimDashes l).reverse := by
  unfold trimDashes
  rw [List.reverse_reverse]
  exact headOk_dropWhile _

lemma dropWhile_eq_self_of_headOk {l : List Char} (h : HeadOk l) :
    l.dropWhile isDash = l := by
  cases l with
  | nil => rfl
  | cons c cs =>
    have := h c (by rw [List.head?_cons])
    simp [List.dropWhile, this]

lemma trim_eq_self {l : List Char} (h1 : HeadOk l) (h2 : HeadOk l.reverse) :
    trimDashes l = l := by
  unfold trimDashes
  rw [dropWhile_eq_self_of_headOk h1, dropWhile_eq_self_of_headOk h2,
    List.reverse_reverse]

lemma rra_dash_id {l : List Char} (h : NoDD l) :
    replaceRunsAux isDash '-' false l = l
      ∧ (HeadOk l → replaceRunsAux isDash '-' true l = l) := by
  induction l with
  | nil => exact ⟨rfl, fun _ => rfl⟩
  | cons c cs ih =>
    have htail : NoDD cs := (List.chain'_cons'.mp h).2
    by_cases hd : isDash c = true
    · have hcs : HeadOk cs := by
        intro d hdd
        have := (List.chain'_cons'.mp h).1 d hdd
        by_contra hb
        exact this ⟨hd, by simpa using hb⟩
      have hc : c = '-' := dash_char_eq hd
      constructor
      · have hred : replaceRunsAux isDash '-' false (c :: cs)
            = '-' :: replaceRunsAux isDash '-' true cs := by
          simp [replaceRunsAux, hd]
        rw [hred, (ih htail).2 hcs, hc]
      · intro hh
        have := hh c (by rw [List.head?_cons])
        rw [this] at hd
        cases hd
    · have hd' : isDash c = false := by simpa using hd
      have := (ih htail).1
      constructor
      · simp [replaceRunsAux, hd', this]
      · intro _
        simp [replaceRunsAux, hd', this]

lemma generateSlug_data (t : String) :
    (generateSlug t).data
      = trimDashes (replaceRuns isDash '-' (replaceRuns isJsWS '-'
          ((t.data.map jsToLower).filter keepChar))) := rfl

lemma generateSlug_idem (t : String) :
    generateSlug (generateSlug t) = generateSlug t := by
  have hchars := slug_chars t
  set A := (generateSlug t).data with hA
  have hmap : A.map jsToLower = A :=
    map_id_of (fun c hc => toLower_fix (hchars c hc))
  have hfilter : A.filter keepChar = A :=
    filter_id_of (fun c hc => keep_of_slug (hchars c hc))
  have hws : replaceRunsAux isJsWS '-' false A = A :=
    rra_id_of_none (fun c hc => not_ws_of_slug (hchars c hc)) false
  have hnodd : NoDD A := by
    rw [hA, generateSlug_data]
    exact noDD_trim (rra_dash_noDD _ false).1
  have hdash : replaceRunsAux isDash '-' false A = A := (rra_dash_id hnodd).1
  have htrim : trimDashes A = A := by
    rw [hA, generateSlug_data]
    exact trim_eq_self (headOk_trim _) (headOk_trim_reverse _)
  have houter : generateSlug (generateSlug t) = String.mk (trimDashes
      (replaceRuns isDash '-' (replaceRuns isJsWS '-'
        ((A.map jsToLower).filter keepChar)))) := rfl
  rw [houter, hmap, hfilter]
  unfold replaceRuns
  rw [hws, hdash, htrim, hA]

/-! ## List helper lemmas -/

lemma find?_eq_none_iff {p : α → Bool} {l : List α} :
    l.find? p = none ↔ ∀ a ∈ l, p a = false := by
  induction l with
  | nil => simp
  | cons a as ih =>
    by_cases hp : p a = true
    · simp [List.find?_cons, hp]
    · have hp' : p a = false := by simpa using hp
      simp [List.find?_cons, hp', ih]

lemma find?_first {p : α → Bool} {l : List α} {a : α}
    (ha : a ∈ l) (hpa : p a = true)
    (huniq : ∀ b ∈ l, p b = true → b = a) : l.find? p = some a := by
  induction l with
  | nil => cases ha
  | cons b bs ih =>
    by_cases hp : p b = true
    · have hba : b = a := huniq b (List.mem_cons_self _ _) hp
      rw [hba] at hp ⊢
      simp [List.find?_cons, hp]
    · have hp' : p b = false := by simpa using hp
      rcases List.mem_cons.mp ha with h | h
      · rw [← h, hpa] at hp'
        cases hp'
      · simp only [List.find?_cons, hp', Bool.false_eq_true, ite_false]
        exact ih h (fun c hc hpc => huniq c (List.mem_cons_of_mem _ hc) hpc)

lemma jsFindIndex_eq_none_iff {p : α → Bool} {l : List α} :
    jsFindIndex p l = none ↔ ∀ a ∈ l, p a = false := by
  induction l with
  | nil => simp [jsFindIndex]
  | cons a as ih =>
    by_cases hp : p a = true
    · simp [jsFindIndex, hp]
    · have hp' : p a = false := by simpa using hp
      simp [jsFindIndex, hp', ih]

lemma jsFindIndex_get {p : α → Bool} {l : List α} {i : Nat} {a : α}
    (h : jsFindIndex p l = some i) (hget : l.get? i = some a) : p a = true := by
  induction l generalizing i with
  | nil => cases h
  | cons b bs ih =>
    by_cases hp : p b = true
    · simp only [jsFindIndex, hp, if_pos, Option.some_inj] at h
      rw [← h] at hget
      simp only [List.get?] at hget
      rw [Option.some_inj] at hget
      rw [← hget]
      exact hp
    · have hp' : p b = false := by simpa using hp
      simp only [jsFindIndex, hp', Bool.false_eq_true, ite_false] at h
      cases hjf : jsFindIndex p bs with
      | none =>
        rw [hjf] at h
        cases h
      | some j =>
        rw [hjf, Option.map_some', Option.some_inj] at h
        rw [← h] at hget
        simp only [List.get?] at hget
        exact ih hjf hget

lemma drop_eq_cons_of_get? {l : List α} {i : Nat} {a : α}
    (h : l.get? i = some a) : l.drop i = a :: l.drop (i + 1) := by
  induction l generalizing i with
  | nil => cases h
  | cons b bs ih =>
    cases i with
    | zero =>
      simp only [List.get?, Option.some_inj] at h
      simp [h]
    | succ j =>
      simp only [List.get?] at h
      simpa using ih h

lemma eraseIdx_eq_take_append_drop_succ (l : List α) (i : Nat) :
    l.eraseIdx i = l.take i ++ l.drop (i + 1) := by
  induction l generalizing i with
  | nil => simp [List.eraseIdx]
  | cons a as ih =>
    cases i with
    | zero => simp [List.eraseIdx]
    | succ j => simp [List.eraseIdx, ih]

lemma mem_eraseIdx_of_ne {l : List α} {i : Nat} {a q : α}
    (hget : l.get? i = some a) (hq : q ∈ l) (hne : q ≠ a) :
    q ∈ l.take i ++ l.drop (i + 1) := by
  have hsplit : l = l.take i ++ l.drop i := (List.take_append_drop i l).symm
  have hdrop : l.drop i = a :: l.drop (i + 1) := drop_eq_cons_of_get? hget
  rw [List.mem_append]
  conv at hq => rw [hsplit, hdrop]
  rcases List.mem_append.mp hq with h | h
  · exact Or.inl h
  · rcases List.mem_cons.mp h with h | h
    · exact absurd h hne
    · exact Or.inr h

lemma take_append_drop_succ_sublist (l : List α) {i : Nat} {a : α}
    (hget : l.get? i = some a) :
    (l.take i ++ l.drop (i + 1)).Sublist l := by
  have hdrop : l.drop i = a :: l.drop (i + 1) := drop_eq_cons_of_get? hget
  have h1 : (l.take i ++ l.drop (i + 1)).Sublist (l.take i ++ l.drop i) := by
    rw [hdrop]
    exact (List.sublist_cons_self _ _).append_left _
  rw [List.take_append_drop i l] at h1
  exact h1

lemma sbSingle_eq_some {l : List Row} {r : Row} :
    sbSingle l = some r ↔ l = [r] := by
  cases l with
  | nil => simp [sbSingle]
  | cons a t =>
    cases t with
    | nil => simp [sbSingle]
    | cons b u => simp [sbSingle]

/-! ## Claim theorems -/

/-- C5: for every title, `generateSlug` computes the slug by lowercasing,
stripping every character that is not a lowercase letter, digit, space or
hyphen, replacing each maximal whitespace run with a hyphen, collapsing
hyphen runs, and trimming leading/trailing hyphens (stated as equality with
the independently formulated `slugSpec`, plus the character-class invariant
of the output); at creation the backend variant appends the creation
timestamp to this slug and the file variant does not. -/
theorem c5_slug_computation (t : String) (now : Nat) :
    generateSlug t = slugSpec t
      ∧ backendCreateSlug t now = slugSpec t ++ "-" ++ toString now
      ∧ fileCreateSlug t = slugSpec t
      ∧ ∀ c ∈ (generateSlug t).data, isSlugChar c = true := by
  refine ⟨generateSlug_eq_slugSpec t, ?_, ?_, slug_chars t⟩
  · rw [backendCreateSlug, generateSlug_eq_slugSpec]
  · rw [fileCreateSlug, generateSlug_eq_slugSpec]

/-- Witness for C5 at a concrete title and timestamp. -/
theorem c5_slug_computation_witness :
    generateSlug "Renovar Ambientes!" = slugSpec "Renovar Ambientes!"
      ∧ backendCreateSlug "Renovar Ambientes!" 7
        = slugSpec "Renovar Ambientes!" ++ "-" ++ toString 7
      ∧ generateSlug "Renovar Ambientes!" = "renovar-ambientes" :=
  ⟨(c5_slug_computation "Renovar Ambientes!" 7).1,
   (c5_slug_computation "Renovar Ambientes!" 7).2.1,
   by decide⟩

/-- C6: slug generation is deterministic (equal titles give equal slugs) and
idempotent (`generateSlug (generateSlug t) = generateSlug t`). -/
theorem c6_slug_idempotent (t₁ t₂ t : String) :
    (t₁ = t₂ → generateSlug t₁ = generateSlug t₂)
      ∧ generateSlug (generateSlug t) = generateSlug t :=
  ⟨fun h => by rw [h], generateSlug_idem t⟩

/-- Witness for C6 at a concrete title. -/
theorem c6_slug_idempotent_witness :
    generateSlug "Sala de Estar" = generateSlug "Sala de Estar"
      ∧ generateSlug (generateSlug "Sala de Estar!")
        = generateSlug "Sala de Estar!"
      ∧ generateSlug "Sala de Estar!" = "sala-de-estar" :=
  ⟨(c6_slug_idempotent "Sala de Estar" "Sala de Estar" "x").1 rfl,
   (c6_slug_idempotent "x" "x" "Sala de Estar!").2,
   by decide⟩

/-- C7: the auth gate answers 401 exactly when the Authorization header is
absent or does not start with `"Bearer "`, 403 exactly when the presented
token fails verification (wrong secret or expired, per the `jwtVerify`
model), and otherwise — and only then — the route handler runs. -/
theorem c7_auth_gate (verify : String → Bool) (h : Option String) :
    (authMiddleware verify h = .unauthorized
        ↔ h = none ∨ ∃ s, h = some s ∧ jsStartsWith s "Bearer " = false)
      ∧ (authMiddleware verify h = .forbidden
        ↔ ∃ s, h = some s ∧ jsStartsWith s "Bearer " = true
            ∧ verify (bearerToken s) = false)
      ∧ (authMiddleware verify h = .proceed
        ↔ ∃ s, h = some s ∧ jsStartsWith s "Bearer " = true
            ∧ verify (bearerToken s) = true)
      ∧ (∀ t secret now, jwtVerify t secret now = false
        ↔ t.secret ≠ secret ∨ t.exp ≤ now) := by
  refine ⟨?_, ?_, ?_, ?_⟩
  · cases h with
    | none => simp [authMiddleware]
    | some s =>
      by_cases hb : jsStartsWith s "Bearer " = true
      · by_cases hv : verify (bearerToken s) = true
        · simp [authMiddleware, hb, hv]
        · have hv' : verify (bearerToken s) = false := by simpa using hv
          simp [authMiddleware, hb, hv']
      · have hb' : jsStartsWith s "Bearer " = false := by simpa using hb
        simp [authMiddleware, hb']
  · cases h with
    | none => simp [authMiddleware]
    | some s =>
      by_cases hb : jsStartsWith s "Bearer " = true
      · by_cases hv : verify (bearerToken s) = true
        · simp [authMiddleware, hb, hv]
        · have hv' : verify (bearerToken s) = false := by simpa using hv
          simp [authMiddleware, hb, hv']
      · have hb' : jsStartsWith s "Bearer " = false := by simpa using hb
        simp [authMiddleware, hb']
  · cases h with
    | none => simp [authMiddleware]
    | some s =>
      by_cases hb : jsStartsWith s "Bearer " = true
      · by_cases hv : verify (bearerToken s) = true
        · simp [authMiddleware, hb, hv]
        · have hv' : verify (bearerToken s) = false := by simpa using hv
          simp [authMiddleware, hb, hv']
      · have hb' : jsStartsWith s "Bearer " = false := by simpa using hb
        simp [authMiddleware, hb']
  · intro t secret now
    simp only [jwtVerify, Bool.and_eq_false_iff]
    constructor
    · rintro (h | h)
      · exact Or.inl (by simpa using h)
      · exact Or.inr (by simpa using h)
    · rintro (h | h)
      · exact Or.inl (by simpa using h)
      · exact Or.inr (by simpa using h)

/-- Witness for C7: each outcome of the gate at a concrete header. -/
theorem c7_auth_gate_witness :
    authMiddleware (fun tok => tok == "t") none = .unauthorized
      ∧ authMiddleware (fun tok => tok == "t") (some "Token x") = .unauthorized
      ∧ authMiddleware (fun tok => tok == "t") (some "Bearer bad") = .forbidden
      ∧ authMiddleware (fun tok => tok == "t") (some "Bearer t") = .proceed :=
  ⟨(c7_auth_gate (fun tok => tok == "t") none).1.mpr (Or.inl rfl),
   (c7_auth_gate (fun tok => tok == "t") (some "Token x")).1.mpr
     (Or.inr ⟨"Token x", rfl, by decide⟩),
   (c7_auth_gate (fun tok => tok == "t") (some "Bearer bad")).2.1.mpr
     ⟨"Bearer bad", rfl, by decide, by decide⟩,
   (c7_auth_gate (fun tok => tok == "t") (some "Bearer t")).2.2.1.mpr
     ⟨"Bearer t", rfl, by decide, by decide⟩⟩

/-- C8: with both fields present, login answers 401 on a wrong username or a
failing hash comparison; with the right username and a succeeding comparison
it answers with a token signed with the configured secret, carrying the
submitted username and a one-hour expiry, verifiable exactly until then. -/
theorem c8_login (compare : String → String → Bool) (env : Env)
    (username password : Option String) (now : Nat)
    (hu : jsFalsy username = false) (hp : jsFalsy password = false) :
    ((username.getD "" ≠ env.adminUsername
        ∨ compare (password.getD "") env.adminPasswordHash = false) →
      loginHandler compare env username password now = .unauthorized)
      ∧ (username.getD "" = env.adminUsername →
          compare (password.getD "") env.adminPasswordHash = true →
          loginHandler compare env username password now
              = .ok (jwtSign (username.getD "") env.jwtSecret now)
            ∧ (jwtSign (username.getD "") env.jwtSecret now).username
                = username.getD ""
            ∧ (jwtSign (username.getD "") env.jwtSecret now).exp = now + 3600
            ∧ ∀ t, jwtVerify (jwtSign (username.getD "") env.jwtSecret now)
                env.jwtSecret t = true ↔ t < now + 3600) := by
  constructor
  · intro hcase
    rcases hcase with hne | hcmp
    · have e1 : (username.getD "" == env.adminUsername) = false := by
        simpa using hne
      simp [loginHandler, hu, hp, e1]
    · by_cases he : username.getD "" = env.adminUsername
      · have e1 : (username.getD "" == env.adminUsername) = true := by
          simpa using he
        simp [loginHandler, hu, hp, e1, hcmp]
      · have e1 : (username.getD "" == env.adminUsername) = false := by
          simpa using he
        simp [loginHandler, hu, hp, e1]
  · intro he hcmp
    have e1 : (username.getD "" == env.adminUsername) = true := by
      simpa using he
    refine ⟨by simp [loginHandler, hu, hp, e1, hcmp], rfl, rfl, ?_⟩
    intro t
    simp [jwtVerify, jwtSign]

/-- Witness for C8: a concrete environment, one successful login and one
failed one. -/
theorem c8_login_witness :
    loginHandler (fun a b => a == b) ⟨"admin", "pw", 42⟩
        (some "admin") (some "pw") 100 = .ok ⟨"admin", 42, 3700⟩
      ∧ loginHandler (fun a b => a == b) ⟨"admin", "pw", 42⟩
        (some "admin") (some "nope") 100 = .unauthorized := by
  constructor
  · exact ((c8_login (fun a b => a == b) ⟨"admin", "pw", 42⟩
      (some "admin") (some "pw") 100 (by decide) (by decide)).2 rfl
      (by decide)).1
  · exact (c8_login (fun a b => a == b) ⟨"admin", "pw", 42⟩
      (some "admin") (some "nope") 100 (by decide) (by decide)).1
      (Or.inr (by decide))

/-- C1: in both variants a create request missing title, content or label
answers 400 and leaves the stored posts untouched; with all three present
(truthy) a record with the assigned id, the computed slug, the timestamps
and the optional image reference is appended/inserted, and its identifiers
are part of the response. -/
theorem c1_create_validation (file : FileContent) (st : BackendState)
    (title content label image imageUrl : Option String) (now : Nat)
    (dateStr isoStr dbNow : String) :
    (title = none ∨ content = none ∨ label = none →
      createPost file title content label now dateStr isoStr imageUrl
          = (.badRequest, file)
        ∧ backendCreate st title content label image now dbNow
          = (.badRequest, st))
      ∧ (jsFalsy title = false → jsFalsy content = false →
          jsFalsy label = false →
        (∀ ps, file = .good ps →
          createPost file title content label now dateStr isoStr imageUrl
            = (.saved now (generateSlug (title.getD "")),
               .good (ps ++ [⟨now, title.getD "", content.getD "",
                 label.getD "", generateSlug (title.getD ""), dateStr,
                 isoStr, imageUrl, none⟩])))
          ∧ backendCreate st title content label image now dbNow
            = (.created ⟨st.nextId, title.getD "", content.getD "",
                label.getD "", generateSlug (title.getD "") ++ "-" ++ toString now,
                (if jsFalsy image = true then none else image), dbNow, none⟩,
               ⟨st.rows ++ [⟨st.nextId, title.getD "", content.getD "",
                 label.getD "", generateSlug (title.getD "") ++ "-" ++ toString now,
                 (if jsFalsy image = true then none else image), dbNow, none⟩],
                st.nextId + 1⟩)) := by
  constructor
  · intro hmiss
    have hcond : (jsFalsy title || jsFalsy content || jsFalsy label) = true := by
      rcases hmiss with h | h | h <;> simp [h, jsFalsy]
    exact ⟨by simp [createPost, hcond], by simp [backendCreate, hcond]⟩
  · intro h1 h2 h3
    have hcond : (jsFalsy title || jsFalsy content || jsFalsy label) = false := by
      simp [h1, h2, h3]
    constructor
    · intro ps hps
      subst hps
      simp [createPost, hcond, fileCreateSlug]
    · simp [backendCreate, hcond, backendCreateSlug]

/-- Witness for C1: a concrete rejected create and a concrete accepted one
in each variant. -/
theorem c1_create_validation_witness :
    createPost (.good []) none (some "c") (some "l") 5 "d" "i" none
        = (.badRequest, .good [])
      ∧ backendCreate ⟨[], 1⟩ none (some "c") (some "l") none 5 "now"
        = (.badRequest, ⟨[], 1⟩)
      ∧ createPost (.good []) (some "T x") (some "c") (some "l") 5 "d" "i" none
        = (.saved 5 "t-x",
           .good [⟨5, "T x", "c", "l", "t-x", "d", "i", none, none⟩])
      ∧ backendCreate ⟨[], 1⟩ (some "T x") (some "c") (some "l") none 5 "now"
        = (.created ⟨1, "T x", "c", "l", "t-x-5", none, "now", none⟩,
           ⟨[⟨1, "T x", "c", "l", "t-x-5", none, "now", none⟩], 2⟩) := by
  have hmiss := (c1_create_validation (.good []) ⟨[], 1⟩ none (some "c")
    (some "l") none none 5 "d" "i" "now").1 (Or.inl rfl)
  have hok := (c1_create_validation (.good []) ⟨[], 1⟩ (some "T x") (some "c")
    (some "l") none none 5 "d" "i" "now").2 (by decide) (by decide) (by decide)
  refine ⟨hmiss.1, hmiss.2, ?_, ?_⟩
  · have := hok.1 [] rfl
    rw [this]
    decide
  · rw [hok.2]
    decide

/-- C9: in file mode, a create request with all required fields succeeds even
when the posts file is unreadable or unparsable, and the rewritten file then
holds exactly the one new post — every previously stored post is
discarded. -/
theorem c9_create_discards_on_bad_file (file : FileContent)
    (title content label imageUrl : Option String) (now : Nat)
    (dateStr isoStr : String)
    (hfile : file = .readError ∨ file = .corrupt)
    (h1 : jsFalsy title = false) (h2 : jsFalsy content = false)
    (h3 : jsFalsy label = false) :
    createPost file title content label now dateStr isoStr imageUrl
      = (.saved now (generateSlug (title.getD "")),
         .good [⟨now, title.getD "", content.getD "", label.getD "",
           generateSlug (title.getD ""), dateStr, isoStr, imageUrl, none⟩]) := by
  have hcond : (jsFalsy title || jsFalsy content || jsFalsy label) = false := by
    simp [h1, h2, h3]
  rcases hfile with h | h <;> subst h <;>
    simp [createPost, hcond, fileCreateSlug]

/-- Witness for C9: creating over an unreadable file keeps only the new
post. -/
theorem c9_create_discards_on_bad_file_witness :
    createPost .readError (some "A") (some "B") (some "C") 3 "d" "i" none
      = (.saved 3 "a", .good [⟨3, "A", "B", "C", "a", "d", "i", none, none⟩]) := by
  rw [c9_create_discards_on_bad_file .readError (some "A") (some "B")
    (some "C") none 3 "d" "i" (Or.inl rfl) (by decide) (by decide) (by decide)]
  decide

/-! ### Success paths of the file-variant update and delete -/

lemma deletePost_none {posts : List Post} {idStr : String}
    (h : ∀ q ∈ posts, jsParseInt idStr ≠ some q.id) :
    deletePost (.good posts) idStr = (.notFound, .good posts) := by
  have hidx : jsFindIndex (fun q => jsParseInt idStr == some q.id) posts
      = none := by
    rw [jsFindIndex_eq_none_iff]
    intro q hq
    simpa using h q hq
  simp [deletePost, hidx]

lemma deletePost_found {posts : List Post} {idStr : String} {i : Nat} {p : Post}
    (hidx : jsFindIndex (fun q => jsParseInt idStr == some q.id) posts = some i)
    (hget : posts.get? i = some p) :
    deletePost (.good posts) idStr
        = (.deleted p, .good (posts.take i ++ posts.drop (i + 1)))
      ∧ jsParseInt idStr = some p.id := by
  have hget' : posts[i]? = some p := by
    rw [← List.get?_eq_getElem?]
    exact hget
  constructor
  · rw [← eraseIdx_eq_take_append_drop_succ]
    simp [deletePost, hidx, hget']
  · have := jsFindIndex_get hidx hget
    simpa using this

lemma updatePost_found {posts : List Post} {idStr : String}
    {title content label : Option String} {nowIso : String} {i : Nat} {p : Post}
    (h1 : jsFalsy title = false) (h2 : jsFalsy content = false)
    (h3 : jsFalsy label = false)
    (hidx : jsFindIndex (fun q => jsParseInt idStr == some q.id) posts = some i)
    (hget : posts.get? i = some p) :
    updatePost (.good posts) idStr title content label nowIso
      = (.success, .good (posts.set i
          { p with
            title := title.getD ""
            content := content.getD ""
            label := label.getD ""
            slug := generateSlug (title.getD "")
            updated := some nowIso })) := by
  have hcond : (jsFalsy title || jsFalsy content || jsFalsy label) = false := by
    simp [h1, h2, h3]
  have hget' : posts[i]? = some p := by
    rw [← List.get?_eq_getElem?]
    exact hget
  simp [updatePost, hcond, hidx, hget']

/-- C2 counterexample: in the backend variant, deleting an id that matches no
stored post answers 200 (`{success: true}` with no removed row), not the 404
the claim requires of both variants. -/
theorem c2_counterexample :
    (∀ r ∈ (⟨[], 1⟩ : BackendState).rows, r.id ≠ 7)
      ∧ backendDelete ⟨[], 1⟩ "7" = (none, ⟨[], 1⟩)
      ∧ backendDeleteStatus (backendDelete ⟨[], 1⟩ "7").1 = 200
      ∧ backendDeleteStatus (backendDelete ⟨[], 1⟩ "7").1 ≠ 404 := by
  refine ⟨?_, by decide, by decide, by decide⟩
  intro r hr
  cases hr

/-- C2 as amended: in the file variant, a delete of an id matching no stored
post answers 404 and changes nothing, and a delete of an existing id removes
exactly the first post with that id, preserving the rest in order, and
returns the removed record; in the backend variant every matching row is
removed, the response always has status 200 (never 404) and carries the
first removed row if any. -/
theorem c2_delete (posts : List Post) (idStr : String) (i : Nat) (p : Post)
    (st : BackendState) :
    ((∀ q ∈ posts, jsParseInt idStr ≠ some q.id) →
      deletePost (.good posts) idStr = (.notFound, .good posts)
        ∧ deleteStatus (deletePost (.good posts) idStr).1 = 404)
      ∧ (jsFindIndex (fun q => jsParseInt idStr == some q.id) posts = some i →
          posts.get? i = some p →
        deletePost (.good posts) idStr
            = (.deleted p, .good (posts.take i ++ posts.drop (i + 1)))
          ∧ jsParseInt idStr = some p.id
          ∧ (posts.take i ++ posts.drop (i + 1)).Sublist posts
          ∧ (∀ q ∈ posts, q ≠ p → q ∈ posts.take i ++ posts.drop (i + 1))
          ∧ deleteStatus (deletePost (.good posts) idStr).1 = 200)
      ∧ (backendDeleteStatus (backendDelete st idStr).1 = 200
          ∧ (∀ r, r ∈ (backendDelete st idStr).2.rows
              ↔ r ∈ st.rows ∧ jsParseInt idStr ≠ some r.id)
          ∧ (backendDelete st idStr).1
              = (st.rows.filter (fun r => jsParseInt idStr == some r.id)).head?) := by
  refine ⟨?_, ?_, ?_, ?_, rfl⟩
  · intro h
    refine ⟨deletePost_none h, ?_⟩
    rw [deletePost_none h]
    rfl
  · intro hidx hget
    obtain ⟨heq, hpid⟩ := deletePost_found hidx hget
    refine ⟨heq, hpid, take_append_drop_succ_sublist posts hget, ?_, ?_⟩
    · intro q hq hne
      exact mem_eraseIdx_of_ne hget hq hne
    · rw [heq]
      rfl
  · rfl
  · intro r
    simp only [backendDelete, List.mem_filter]
    constructor
    · rintro ⟨hr, hneg⟩
      refine ⟨hr, ?_⟩
      simpa using hneg
    · rintro ⟨hr, hne⟩
      refine ⟨hr, ?_⟩
      simpa using hne

/-- Witness for C2: a concrete miss and a concrete hit of the file-variant
delete. -/
theorem c2_delete_witness :
    deletePost (.good [⟨1, "a", "c", "l", "s", "d", "ca", none, none⟩]) "9"
        = (.notFound, .good [⟨1, "a", "c", "l", "s", "d", "ca", none, none⟩])
      ∧ deletePost (.good [⟨1, "a", "c", "l", "s", "d", "ca", none, none⟩]) "1"
        = (.deleted ⟨1, "a", "c", "l", "s", "d", "ca", none, none⟩, .good []) := by
  constructor
  · exact ((c2_delete [⟨1, "a", "c", "l", "s", "d", "ca", none, none⟩] "9"
      0 ⟨1, "a", "c", "l", "s", "d", "ca", none, none⟩ ⟨[], 1⟩).1
      (by decide)).1
  · have h := ((c2_delete [⟨1, "a", "c", "l", "s", "d", "ca", none, none⟩] "1"
      0 ⟨1, "a", "c", "l", "s", "d", "ca", none, none⟩ ⟨[], 1⟩).2.1
      (by decide) (by decide)).1
    rw [h]
    rfl

/-- C3 counterexample: in the file variant, a partial update (only a title
supplied) of an existing post is rejected with 400 and changes nothing —
the claim's "any subset of the fields may be supplied" fails there. -/
theorem c3_counterexample :
    (⟨1, "Old", "c", "l", "old", "J", "D", none, none⟩ : Post)
        ∈ [(⟨1, "Old", "c", "l", "old", "J", "D", none, none⟩ : Post)]
      ∧ jsParseInt "1" = some 1
      ∧ updatePost (.good [⟨1, "Old", "c", "l", "old", "J", "D", none, none⟩])
          "1" (some "New Title") none none "T"
        = (.badRequest,
           .good [⟨1, "Old", "c", "l", "old", "J", "D", none, none⟩]) := by
  refine ⟨List.mem_cons_self _ _, by decide, by decide⟩

/-- C3 as amended: the backend variant accepts any subset of title, content,
label, image, merging the truthy supplied fields into every row with the
given id, recomputing the slug exactly when a title whose slug is nonempty
is supplied, stamping `updated_at`, and letting a freshly uploaded file's
URL replace the image; the file variant instead requires all of title,
content and label (400 when any is missing) and on success merges them,
recomputes the slug, stamps the update time, and cannot change the image. -/
theorem c3_update (file : FileContent) (posts : List Post) (idStr : String)
    (title content label bodyImage uploadUrl : Option String)
    (nowIso : String) (i j : Nat) (p : Post) (st : BackendState) (r : Row) :
    (title = none ∨ content = none ∨ label = none →
      updatePost file idStr title content label nowIso = (.badRequest, file))
      ∧ (jsFalsy title = false → jsFalsy content = false →
          jsFalsy label = false →
          jsFindIndex (fun q => jsParseInt idStr == some q.id) posts = some i →
          posts.get? i = some p →
        updatePost (.good posts) idStr title content label nowIso
          = (.success, .good (posts.set i
              { p with
                title := title.getD ""
                content := content.getD ""
                label := label.getD ""
                slug := generateSlug (title.getD "")
                updated := some nowIso })))
      ∧ (st.rows.get? j = some r →
        ∃ r', (backendUpdate st idStr title content label bodyImage uploadUrl
            nowIso).2.rows.get? j = some r'
          ∧ (jsParseInt idStr = some r.id →
              r'.updated_at = some nowIso
                ∧ r'.id = r.id
                ∧ r'.created_at = r.created_at
                ∧ (title = none → r'.title = r.title ∧ r'.slug = r.slug)
                ∧ (∀ t, title = some t → t ≠ "" → r'.title = t)
                ∧ (∀ t, title = some t → generateSlug t ≠ "" →
                    r'.slug = generateSlug t)
                ∧ (∀ t, title = some t → generateSlug t = "" →
                    r'.slug = r.slug)
                ∧ (content = none → r'.content = r.content)
                ∧ (∀ c, content = some c → c ≠ "" → r'.content = c)
                ∧ (label = none → r'.label = r.label)
                ∧ (∀ a, label = some a → a ≠ "" → r'.label = a)
                ∧ (∀ u, uploadUrl = some u → u ≠ "" → r'.image = some u)
                ∧ (uploadUrl = none → bodyImage = none → r'.image = r.image))
          ∧ (jsParseInt idStr ≠ some r.id → r' = r)) := by
  refine ⟨?_, ?_, ?_⟩
  · intro hmiss
    have hcond : (jsFalsy title || jsFalsy content || jsFalsy label) = true := by
      rcases hmiss with h | h | h <;> simp [h, jsFalsy]
    simp [updatePost, hcond]
  · intro h1 h2 h3 hidx hget
    exact updatePost_found h1 h2 h3 hidx hget
  · intro hget
    have hget' : st.rows[j]? = some r := by
      rw [← List.get?_eq_getElem?]
      exact hget
    by_cases hm : jsParseInt idStr = some r.id
    · have hbeq : (jsParseInt idStr == some r.id) = true := by simpa using hm
      refine ⟨bUpdateRow title content label (bImageOf bodyImage uploadUrl)
        (bSlugOf title) nowIso r, ?_, ?_, ?_⟩
      · show (st.rows.map _).get? j = _
        rw [List.get?_eq_getElem?, List.getElem?_map, hget', Option.map_some']
        simp [hbeq]
      · intro _
        refine ⟨rfl, rfl, rfl, ?_, ?_, ?_, ?_, ?_, ?_, ?_, ?_, ?_, ?_⟩
        · intro ht
          subst ht
          exact ⟨rfl, rfl⟩
        · intro t ht hne
          subst ht
          have hf : jsFalsy (some t) = false := by simp [jsFalsy, hne]
          simp [bUpdateRow, hf]
        · intro t ht hne
          subst ht
          have htne : (t == "") = false := by
            by_cases h : t = ""
            · subst h
              exact absurd (by decide : generateSlug "" = "") hne
            · simp [h]
          have hf : jsFalsy (some (generateSlug t)) = false := by
            simp [jsFalsy, hne]
          simp [bUpdateRow, bSlugOf, htne, hf]
        · intro t ht hz
          subst ht
          by_cases h : t = ""
          · subst h
            simp [bUpdateRow, bSlugOf, jsFalsy]
          · have htne : (t == "") = false := by simp [h]
            have hf : jsFalsy (some (generateSlug t)) = true := by
              simp [jsFalsy, hz]
            simp [bUpdateRow, bSlugOf, htne, hf]
        · intro hc
          subst hc
          rfl
        · intro c hc hne
          subst hc
          have hf : jsFalsy (some c) = false := by simp [jsFalsy, hne]
          simp [bUpdateRow, hf]
        · intro hl
          subst hl
          rfl
        · intro a ha hne
          subst ha
          have hf : jsFalsy (some a) = false := by simp [jsFalsy, hne]
          simp [bUpdateRow, hf]
        · intro u hu hne
          subst hu
          have hf : jsFalsy (some u) = false := by simp [jsFalsy, hne]
          simp [bUpdateRow, bImageOf, hf]
        · intro hup hbody
          subst hup
          subst hbody
          rfl
      · intro hne
        exact absurd hm hne
    · have hbeq : (jsParseInt idStr == some r.id) = false := by simpa using hm
      refine ⟨r, ?_, fun h => absurd h hm, fun _ => rfl⟩
      show (st.rows.map _).get? j = _
      rw [List.get?_eq_getElem?, List.getElem?_map, hget', Option.map_some']
      simp [hbeq]

/-- Witness for C3: the file variant rejects a partial update and applies a
full one; the backend variant merges a partial update into the matching
row. -/
theorem c3_update_witness :
    updatePost (.good []) "1" (some "T") none none "N" = (.badRequest, .good [])
      ∧ updatePost (.good [⟨1, "Old", "c", "l", "old", "J", "D", none, none⟩])
          "1" (some "New T") (some "c2") (some "l2") "N"
        = (.success, .good [⟨1, "New T", "c2", "l2", "new-t", "J", "D",
            none, some "N"⟩])
      ∧ (∃ r', (backendUpdate ⟨[⟨1, "Old", "c", "l", "old", none, "ca", none⟩], 2⟩
            "1" (some "New T") none none none none "N").2.rows.get? 0 = some r'
          ∧ r'.title = "New T" ∧ r'.slug = "new-t" ∧ r'.content = "c"
          ∧ r'.updated_at = some "N") := by
  refine ⟨?_, ?_, ?_⟩
  · exact (c3_update (.good []) [] "1" (some "T") none none none none "N"
      0 0 ⟨1, "", "", "", "", "", "", none, none⟩ ⟨[], 1⟩
      ⟨1, "", "", "", "", none, "", none⟩).1 (Or.inr (Or.inl rfl))
  · have h := (c3_update (.good []) [⟨1, "Old", "c", "l", "old", "J", "D",
      none, none⟩] "1" (some "New T") (some "c2") (some "l2") none none "N"
      0 0 ⟨1, "Old", "c", "l", "old", "J", "D", none, none⟩ ⟨[], 1⟩
      ⟨1, "", "", "", "", none, "", none⟩).2.1 (by decide) (by decide)
      (by decide) (by decide) (by decide)
    rw [h]
    decide
  · obtain ⟨r', hr', hmatch, -⟩ := (c3_update (.good []) [] "1" (some "New T")
      none none none none "N" 0 0 ⟨1, "", "", "", "", "", "", none, none⟩
      ⟨[⟨1, "Old", "c", "l", "old", none, "ca", none⟩], 2⟩
      ⟨1, "Old", "c", "l", "old", none, "ca", none⟩).2.2 (by decide)
    obtain ⟨hupd, -, -, -, htitle, hslug, -, hcontent, -, -, -, -, -⟩ :=
      hmatch (by decide)
    refine ⟨r', hr', htitle "New T" rfl (by decide), ?_, hcontent rfl, hupd⟩
    have := hslug "New T" rfl (by decide)
    rw [this]
    decide

/-- C10: in file mode a successful update rewrites only the target post's
title, content, label, slug and updated fields — its id, createdAt, date and
image survive, every other position is untouched, and the length is
preserved; a successful delete removes exactly the target post, keeping
every other post and their relative order. -/
theorem c10_frame (posts : List Post) (idStr : String)
    (title content label : Option String) (nowIso : String) (i : Nat) (p : Post)
    (hidx : jsFindIndex (fun q => jsParseInt idStr == some q.id) posts = some i)
    (hget : posts.get? i = some p)
    (h1 : jsFalsy title = false) (h2 : jsFalsy content = false)
    (h3 : jsFalsy label = false) :
    (updatePost (.good posts) idStr title content label nowIso
        = (.success, .good (posts.set i
            { p with
              title := title.getD ""
              content := content.getD ""
              label := label.getD ""
              slug := generateSlug (title.getD "")
              updated := some nowIso }))
      ∧ (posts.set i
            { p with
              title := title.getD ""
              content := content.getD ""
              label := label.getD ""
              slug := generateSlug (title.getD "")
              updated := some nowIso }).length = posts.length
      ∧ (∀ j, j ≠ i →
          (posts.set i
            { p with
              title := title.getD ""
              content := content.getD ""
              label := label.getD ""
              slug := generateSlug (title.getD "")
              updated := some nowIso }).get? j = posts.get? j))
      ∧ (deletePost (.good posts) idStr
          = (.deleted p, .good (posts.take i ++ posts.drop (i + 1)))
        ∧ jsParseInt idStr = some p.id
        ∧ (posts.take i ++ posts.drop (i + 1)).Sublist posts
        ∧ (∀ q ∈ posts, q ≠ p →
            q ∈ posts.take i ++ posts.drop (i + 1))) := by
  obtain ⟨hdel, hpid⟩ := deletePost_found hidx hget
  refine ⟨⟨updatePost_found h1 h2 h3 hidx hget, List.length_set _ _ _, ?_⟩,
    hdel, hpid, take_append_drop_succ_sublist posts hget, ?_⟩
  · intro j hj
    rw [List.get?_eq_getElem?, List.get?_eq_getElem?,
      List.getElem?_set_ne (fun h => hj h.symm)]
  · intro q hq hne
    exact mem_eraseIdx_of_ne hget hq hne

/-- Witness for C10: a two-post list where updating and deleting post 2
leaves post 1 in place. -/
theorem c10_frame_witness :
    updatePost (.good [⟨1, "a", "b", "c", "a", "d1", "t1", none, none⟩,
        ⟨2, "x", "y", "z", "x", "d2", "t2", some "img", none⟩]) "2"
        (some "New") (some "Y") (some "Z") "N"
      = (.success, .good [⟨1, "a", "b", "c", "a", "d1", "t1", none, none⟩,
          ⟨2, "New", "Y", "Z", "new", "d2", "t2", some "img", some "N"⟩])
      ∧ deletePost (.good [⟨1, "a", "b", "c", "a", "d1", "t1", none, none⟩,
          ⟨2, "x", "y", "z", "x", "d2", "t2", some "img", none⟩]) "2"
        = (.deleted ⟨2, "x", "y", "z", "x", "d2", "t2", some "img", none⟩,
           .good [⟨1, "a", "b", "c", "a", "d1", "t1", none, none⟩]) := by
  have h := c10_frame [⟨1, "a", "b", "c", "a", "d1", "t1", none, none⟩,
    ⟨2, "x", "y", "z", "x", "d2", "t2", some "img", none⟩] "2"
    (some "New") (some "Y") (some "Z") "N" 1
    ⟨2, "x", "y", "z", "x", "d2", "t2", some "img", none⟩
    (by decide) (by decide) (by decide) (by decide) (by decide)
  constructor
  · rw [h.1.1]
    decide
  · rw [h.2.1]
    rfl

/-! ### Lookup characterization helpers -/

lemma lookupFile_unfold (posts : List Post) (ident : String) :
    lookupFile (.good posts) ident
      = match ((if jsIsNumeric ident then
            posts.find? (fun p => jsParseInt ident == some p.id)
          else none)
          <|> posts.find? (fun p => p.slug == ident))
          <|> posts.find? (fun p => generateSlug p.title == ident) with
        | some p => .found p
        | none => .notFound := rfl

lemma orElse3_found {b s2 s3 : Option Post} {q : Post} :
    (match (b <|> s2) <|> s3 with
      | some p => LookupResult.found p
      | none => LookupResult.notFound) = .found q
      ↔ b = some q ∨ (b = none ∧ s2 = some q)
        ∨ (b = none ∧ s2 = none ∧ s3 = some q) := by
  cases b <;> cases s2 <;> cases s3 <;>
    simp [Option.orElse]

lemma orElse3_notFound {b s2 s3 : Option Post} :
    (match (b <|> s2) <|> s3 with
      | some p => LookupResult.found p
      | none => LookupResult.notFound) = .notFound
      ↔ b = none ∧ s2 = none ∧ s3 = none := by
  cases b <;> cases s2 <;> cases s3 <;>
    simp [Option.orElse]

lemma lookupFile_notFound_iff (posts : List Post) (ident : String) :
    lookupFile (.good posts) ident = .notFound
      ↔ ∀ p ∈ posts,
          (jsIsNumeric ident = true → jsParseInt ident ≠ some p.id)
            ∧ p.slug ≠ ident ∧ generateSlug p.title ≠ ident := by
  rw [lookupFile_unfold, orElse3_notFound]
  constructor
  · rintro ⟨hb, hs2, hs3⟩ p hp
    refine ⟨?_, ?_, ?_⟩
    · intro hnum heq
      rw [hnum, if_pos rfl] at hb
      have := find?_eq_none_iff.mp hb p hp
      rw [heq] at this
      simp at this
    · intro heq
      have := find?_eq_none_iff.mp hs2 p hp
      rw [heq] at this
      simp at this
    · intro heq
      have := find?_eq_none_iff.mp hs3 p hp
      rw [heq] at this
      simp at this
  · intro hall
    refine ⟨?_, ?_, ?_⟩
    · by_cases hnum : jsIsNumeric ident = true
      · rw [hnum, if_pos rfl]
        rw [find?_eq_none_iff]
        intro p hp
        have := (hall p hp).1 hnum
        simpa using this
      · have hnum' : jsIsNumeric ident = false := by simpa using hnum
        rw [hnum']
        simp
    · rw [find?_eq_none_iff]
      intro p hp
      have := (hall p hp).2.1
      simpa using this
    · rw [find?_eq_none_iff]
      intro p hp
      have := (hall p hp).2.2
      simpa using this

lemma lookupBackend_found_iff (st : BackendState) (ident : String) (r : Row) :
    lookupBackend st ident = .found r
      ↔ (jsIsNumeric ident = true
          ∧ st.rows.filter (fun q => jsParseInt ident == some q.id) = [r])
        ∨ (jsIsNumeric ident = false
          ∧ st.rows.filter (fun q => q.slug == ident) = [r]) := by
  by_cases hnum : jsIsNumeric ident = true
  · have hred : lookupBackend st ident
        = match sbSingle (st.rows.filter (fun q => jsParseInt ident == some q.id)) with
          | some q => BLookupResult.found q
          | none => BLookupResult.notFound := by
      simp only [lookupBackend, hnum, ite_true]
    rw [hred]
    cases hs : sbSingle (st.rows.filter (fun q => jsParseInt ident == some q.id)) with
    | some q =>
      have hf := sbSingle_eq_some.mp hs
      constructor
      · intro h
        have hqr : q = r := by
          cases h
          rfl
        subst hqr
        exact Or.inl ⟨hnum, hf⟩
      · rintro (⟨-, h⟩ | ⟨hbad, -⟩)
        · rw [hf] at h
          rw [(List.cons.inj h).1]
        · rw [hnum] at hbad
          cases hbad
    | none =>
      constructor
      · intro h
        cases h
      · rintro (⟨-, h⟩ | ⟨hbad, -⟩)
        · have hsome := sbSingle_eq_some.mpr h
          rw [hs] at hsome
          cases hsome
        · rw [hnum] at hbad
          cases hbad
  · have hnum' : jsIsNumeric ident = false := by simpa using hnum
    have hred : lookupBackend st ident
        = match sbSingle (st.rows.filter (fun q => q.slug == ident)) with
          | some q => BLookupResult.found q
          | none => BLookupResult.notFound := by
      simp only [lookupBackend, hnum', Bool.false_eq_true, ite_false]
    rw [hred]
    cases hs : sbSingle (st.rows.filter (fun q => q.slug == ident)) with
    | some q =>
      have hf := sbSingle_eq_some.mp hs
      constructor
      · intro h
        have hqr : q = r := by
          cases h
          rfl
        subst hqr
        exact Or.inr ⟨hnum', hf⟩
      · rintro (⟨hbad, -⟩ | ⟨-, h⟩)
        · rw [hnum'] at hbad
          cases hbad
        · rw [hf] at h
          rw [(List.cons.inj h).1]
    | none =>
      constructor
      · intro h
        cases h
      · rintro (⟨hbad, -⟩ | ⟨-, h⟩)
        · rw [hnum'] at hbad
          cases hbad
        · have hsome := sbSingle_eq_some.mpr h
          rw [hs] at hsome
          cases hsome

/-- C4 counterexample: a backend table holding one row with id 5 and slug
"123".  On the identifier "123" the backend lookup answers 404 although an
exact-slug match exists (the numeric branch never falls through to slugs),
while the file variant on the same data finds the post by slug — so the
claim's uniform "numeric first, then slug, 404 exactly when no applicable
match succeeds" fails on the backend variant. -/
theorem c4_counterexample :
    (⟨5, "T", "c", "l", "123", none, "d", none⟩ : Row).slug = "123"
      ∧ lookupBackend ⟨[⟨5, "T", "c", "l", "123", none, "d", none⟩], 6⟩ "123"
        = .notFound
      ∧ lookupFile
          (.good [⟨5, "T", "c", "l", "123", "d", "ca", none, none⟩]) "123"
        = .found ⟨5, "T", "c", "l", "123", "d", "ca", none, none⟩ :=
  ⟨rfl, by decide, by decide⟩

/-- C4 as amended: the file variant tries a numeric-id match, then an exact
slug, then the title-derived slug, and answers 404 exactly when every stage
fails on every post; the backend variant applies only the id filter to a
numeric identifier and only the slug filter otherwise, finding a row exactly
when that single filter selects exactly one row; and in the file variant a
post reachable by numeric id, exact slug and derived slug (each designating
it unambiguously) resolves to the same post under all three identifiers. -/
theorem c4_lookup :
    (∀ posts ident, lookupFile (.good posts) ident = .notFound
      ↔ ∀ p ∈ posts,
          (jsIsNumeric ident = true → jsParseInt ident ≠ some p.id)
            ∧ p.slug ≠ ident ∧ generateSlug p.title ≠ ident)
      ∧ (∀ st ident r, lookupBackend st ident = .found r
        ↔ (jsIsNumeric ident = true
            ∧ st.rows.filter (fun q => jsParseInt ident == some q.id) = [r])
          ∨ (jsIsNumeric ident = false
            ∧ st.rows.filter (fun q => q.slug == ident) = [r]))
      ∧ (∀ posts (p : Post) (s : String),
          p ∈ posts →
          (∀ q ∈ posts, q.id = p.id → q = p) →
          (∀ q ∈ posts, q.slug = p.slug → q = p) →
          (∀ q ∈ posts, q.slug = generateSlug p.title → q = p) →
          (∀ q ∈ posts, generateSlug q.title = generateSlug p.title → q = p) →
          jsIsNumeric p.slug = false →
          jsIsNumeric (generateSlug p.title) = false →
          jsIsNumeric s = true → jsParseInt s = some p.id →
          lookupFile (.good posts) s = .found p
            ∧ lookupFile (.good posts) p.slug = .found p
            ∧ lookupFile (.good posts) (generateSlug p.title) = .found p) := by
  refine ⟨lookupFile_notFound_iff, lookupBackend_found_iff, ?_⟩
  intro posts p s hmem hidU hslugU hderSlugU hderU hsn hdn hnum hparse
  refine ⟨?_, ?_, ?_⟩
  · rw [lookupFile_unfold, orElse3_found]
    refine Or.inl ?_
    rw [hnum, if_pos rfl]
    refine find?_first hmem ?_ ?_
    · rw [hparse]
      simp
    · intro q hq hpq
      rw [hparse] at hpq
      have : p.id = q.id := by simpa using hpq
      exact hidU q hq this.symm
  · rw [lookupFile_unfold, orElse3_found]
    refine Or.inr (Or.inl ⟨?_, ?_⟩)
    · rw [hsn]
      simp
    · refine find?_first hmem (by simp) ?_
      intro q hq hpq
      exact hslugU q hq (by simpa using hpq)
  · rw [lookupFile_unfold, orElse3_found]
    by_cases hps : p.slug = generateSlug p.title
    · refine Or.inr (Or.inl ⟨?_, ?_⟩)
      · rw [hdn]
        simp
      · refine find?_first hmem (by simp [hps]) ?_
        intro q hq hpq
        exact hderSlugU q hq (by simpa using hpq)
    · refine Or.inr (Or.inr ⟨?_, ?_, ?_⟩)
      · rw [hdn]
        simp
      · rw [find?_eq_none_iff]
        intro q hq
        by_cases h : q.slug = generateSlug p.title
        · have := hderSlugU q hq h
          rw [this] at h
          exact absurd h hps
        · simpa using h
      · refine find?_first hmem (by simp) ?_
        intro q hq hpq
        exact hderU q hq (by simpa using hpq)

/-- Witness for C4: one post reachable by its id "5", its stored slug and
its title-derived slug, resolving to the same post each way. -/
theorem c4_lookup_witness :
    lookupFile (.good [⟨5, "My Post", "c", "l", "my-post", "d", "ca",
        none, none⟩]) "5"
      = .found ⟨5, "My Post", "c", "l", "my-post", "d", "ca", none, none⟩
      ∧ lookupFile (.good [⟨5, "My Post", "c", "l", "my-post", "d", "ca",
          none, none⟩]) "my-post"
        = .found ⟨5, "My Post", "c", "l", "my-post", "d", "ca", none, none⟩
      ∧ lookupFile (.good [⟨5, "My Post", "c", "l", "my-post", "d", "ca",
          none, none⟩]) (generateSlug "My Post")
        = .found ⟨5, "My Post", "c", "l", "my-post", "d", "ca", none, none⟩
      ∧ lookupFile (.good []) "none-here" = .notFound := by
  have h := c4_lookup.2.2
    [⟨5, "My Post", "c", "l", "my-post", "d", "ca", none, none⟩]
    ⟨5, "My Post", "c", "l", "my-post", "d", "ca", none, none⟩ "5"
    (List.mem_cons_self _ _) (by decide) (by decide) (by decide) (by decide)
    (by decide) (by decide) (by decide) (by decide)
  exact ⟨h.1, h.2.1, h.2.2,
    (c4_lookup.1 [] "none-here").mpr (by intro p hp; cases hp)⟩

end Renovar
